import Mathlib

/-!
Verification of the depth-time interpolation core of `WC_Vars_PSIV.py`
(`SensorDataProcessor.perform_interpolation`, lines 804-948), shallowly
embedded over exact rationals (the Python code computes with floats; the
spec states its numeric properties "within floating-point tolerance", so
the embedding uses `ℚ` for depths and values and `ℤ` for timestamps).
Missing values (`NaN`) are `Option.none`.
-/

namespace WaterCol

/-- Timestamps of the pandas `DatetimeIndex`, modelled as integers. -/
abbrev Time := ℤ

/-- One processed sensor data frame (`df` in `self.depth_arrays`): a time
index and named columns of possibly-missing values, each column as long as
the index. -/
structure SensorFrame where
  index : List Time
  cols : List (String × List (Option ℚ))
  deriving DecidableEq, Repr

/-- The registry `self.depth_arrays`: depth key to data frame, in dict
insertion order (Python dicts preserve insertion order; depth keys are
unique because they are dict keys). -/
abbrev Registry := List (ℚ × SensorFrame)

/-- The value of column `v` of frame `f` at timestamp `t`: the cell at the
first index position holding `t`, or missing when `t` is not in the index.
This is what both alignment paths of the source compute
(`df.loc[time_index, var]` when every common timestamp is present, and
`df.reindex(time_index)[var]` otherwise). -/
def frameAt (f : SensorFrame) (v : String) (t : Time) : Option ℚ :=
  match f.cols.find? (fun c => c.1 = v) with
  | none => none
  | some c =>
    match f.index.findIdx? (fun u => u = t) with
    | some i => c.2.getD i none
    | none => none

/-- Column names of a frame (`df.columns`). -/
def colNames (f : SensorFrame) : List String :=
  f.cols.map Prod.fst

/-- The common time index derivation (source lines 829-851): if every
sensor's index equals the first one, use it; otherwise fold pandas
`Index.intersection` over the rest; if the intersection is empty, fall
back to the first sensor's index (warning, not an error).  `none` is the
`"No Time Index"` error path (no sensors).  For the strictly increasing,
duplicate-free indexes the data model guarantees, pandas intersection of
`acc` with `b` is exactly the elements of `acc` that occur in `b`, kept in
`acc`'s (ascending) order, which is how it is rendered here. -/
def commonTimeIndex (axes : List (List Time)) : Option (List Time) :=
  match axes with
  | [] => none
  | a :: rest =>
    if (a :: rest).all (fun b => b = a) then some a
    else
      let inter := rest.foldl (fun acc b => acc.filter (fun t => t ∈ b)) a
      if inter = [] then some a else some inter

/-- The depth axis `np.arange(0, max_depth + depth_res, depth_res)`
(source line 854): values `i * depth_res` for
`i = 0, 1, ..., n-1` with `n = max 0 ⌈(max_depth + depth_res) / depth_res⌉`,
which is `np.arange`'s length formula `ceil((stop - start) / step)`.
Meaningless for `depth_res = 0`, where `np.arange` raises and the caller's
generic exception handler fires; that case is routed to an error in
`performInterpolation` below and never reaches this function. -/
def depthPoints (depthRes maxDepth : ℚ) : List ℚ :=
  (List.range (⌈(maxDepth + depthRes) / depthRes⌉.toNat)).map
    (fun i : ℕ => (i : ℚ) * depthRes)

/-- Per-variable aligned data `var_data` (source lines 866-875): for each
registry entry whose frame has column `v`, the depth key paired with the
column aligned to the common time index. Registry (dict) order is kept. -/
def varDataFor (reg : Registry) (v : String) (times : List Time) :
    List (ℚ × List (Option ℚ)) :=
  reg.filterMap (fun p =>
    if v ∈ colNames p.2 then some (p.1, times.map (frameAt p.2 v)) else none)

/-- The valid readings at time position `tIdx` (source lines 885-890): the
`(depth, value)` pairs of sensors whose aligned value at `tIdx` is not
missing, in registry order (`depths` / `values` in the source). -/
def readingsAt (varData : List (ℚ × List (Option ℚ))) (tIdx : ℕ) :
    List (ℚ × ℚ) :=
  varData.filterMap (fun dv => (dv.2.getD tIdx none).map (fun x => (dv.1, x)))

/-- Ordering of readings by depth, the key `np.argsort(depths)` sorts by. -/
def depthLE (a b : ℚ × ℚ) : Prop :=
  a.1 ≤ b.1

instance : DecidableRel depthLE :=
  fun a b => inferInstanceAs (Decidable (a.1 ≤ b.1))

instance : IsTotal (ℚ × ℚ) depthLE :=
  ⟨fun a b => le_total a.1 b.1⟩

instance : IsTrans (ℚ × ℚ) depthLE :=
  ⟨fun _ _ _ h1 h2 => le_trans h1 h2⟩

/-- `depths_sorted` / `values_sorted`: the valid readings sorted by depth
(`np.argsort`; depth keys are distinct, so any stable sort agrees). -/
def sortReadings (rs : List (ℚ × ℚ)) : List (ℚ × ℚ) :=
  List.insertionSort depthLE rs

/-- The interpolated cell at one depth point `d` for sorted readings `srt`
with `srt.length ≥ 2` (source lines 898-923).  Inside the sensor range the
bracketing index is `np.searchsorted(depths_sorted, d)` (side `left`),
which on a sorted array is the count of depths strictly below `d`; the
four branches mirror the source (`idx_above == 0`, `idx_above == len`,
exact depth match, linear blend).  Outside the range the cell keeps its
`NaN` initialization. -/
def interpAt (srt : List (ℚ × ℚ)) (d : ℚ) : Option ℚ :=
  let n := srt.length
  if (srt.getD 0 (0, 0)).1 ≤ d ∧ d ≤ (srt.getD (n - 1) (0, 0)).1 then
    let i := srt.countP (fun p => decide (p.1 < d))
    if i = 0 then some (srt.getD 0 (0, 0)).2
    else if i = n then some (srt.getD (n - 1) (0, 0)).2
    else if d = (srt.getD i (0, 0)).1 then some (srt.getD i (0, 0)).2
    else
      let dB := (srt.getD (i - 1) (0, 0)).1
      let dA := (srt.getD i (0, 0)).1
      let vB := (srt.getD (i - 1) (0, 0)).2
      let vA := (srt.getD i (0, 0)).2
      let w := (d - dB) / (dA - dB)
      some ((1 - w) * vB + w * vA)
  else none

/-- The bracketing index `idx_above = np.searchsorted(depths_sorted, d)`
of `interpAt`, named for the proofs below. -/
def brIdx (l : List (ℚ × ℚ)) (x : ℚ) : ℕ :=
  l.countP (fun p => decide (p.1 < x))

/-- The in-range value produced by `interpAt` (the body of its outer
`if`, minus the dead `idx_above == len` branch), named for the proofs
below. -/
def brVal (l : List (ℚ × ℚ)) (x : ℚ) : ℚ :=
  if brIdx l x = 0 then (l.getD 0 (0, 0)).2
  else if x = (l.getD (brIdx l x) (0, 0)).1 then (l.getD (brIdx l x) (0, 0)).2
  else
    (1 - (x - (l.getD (brIdx l x - 1) (0, 0)).1) /
        ((l.getD (brIdx l x) (0, 0)).1 - (l.getD (brIdx l x - 1) (0, 0)).1)) *
      (l.getD (brIdx l x - 1) (0, 0)).2 +
    (x - (l.getD (brIdx l x - 1) (0, 0)).1) /
        ((l.getD (brIdx l x) (0, 0)).1 - (l.getD (brIdx l x - 1) (0, 0)).1) *
      (l.getD (brIdx l x) (0, 0)).2

/-- One time column of `var_array` (source lines 892-926): with at least
two valid readings, interpolate each depth point; with exactly one, the
whole column takes that single value (`var_array[:, t_idx] = values[0]`);
with none, the column keeps its `NaN` fill. -/
def interpColumn (rs : List (ℚ × ℚ)) (dps : List ℚ) : List (Option ℚ) :=
  if 2 ≤ rs.length then
    dps.map (fun d => interpAt (sortReadings rs) d)
  else if rs.length = 1 then
    dps.map (fun _ => some (rs.headD (0, 0)).2)
  else
    dps.map (fun _ => none)

/-- The boundary fill of one time column (source lines 931-942):
`valid_depth_indices = np.where(~isnan(col))`; when non-empty, indices
below the first valid one get its value and indices above the last valid
one get that one's value; a column with no valid cell is untouched. -/
def fillColumn (col : List (Option ℚ)) : List (Option ℚ) :=
  let valid := (List.range col.length).filter (fun i => (col.getD i none).isSome)
  if valid = [] then col
  else
    let lo := valid.headD 0
    let hi := valid.getLastD 0
    (List.range col.length).map (fun j =>
      if j < lo then col.getD lo none
      else if hi < j then col.getD hi none
      else col.getD j none)

/-- One entry of `self.interpolated_arrays`: the 2-D value array stored as
one list per time column (`data.getD tIdx` is the column
`var_array[:, tIdx]`), plus the depth axis and the common time index. -/
structure Grid where
  data : List (List (Option ℚ))
  depths : List ℚ
  times : List Time
  deriving DecidableEq, Repr

/-- Cell accessor: `var_array[dIdx, tIdx]`. -/
def Grid.cell (g : Grid) (dIdx tIdx : ℕ) : Option ℚ :=
  (g.data.getD tIdx []).getD dIdx none

/-- The grid computation for one variable (source lines 860-948): gather
`var_data` (skipping the variable entirely when no sensor has it — the
`"Missing Variable"` warning path, rendered as `none`), interpolate each
time column, then run the fill pass.  The source gates the fill pass on
`fill_values and depths`, where `depths` is whatever the per-time loop
left in that variable after its LAST iteration — i.e. the valid-reading
depth list of the final time column — so the pass runs only when the
final time column has at least one valid reading.  When the common time
axis is empty the per-time loop never runs and `depths` is unbound:
with `fill_values` enabled Python then raises `UnboundLocalError` at
that gate, a path `performInterpolation` below routes to its error
result before this function's value is consulted; with `fill_values`
disabled the short-circuit skips `depths` and this function matches the
source. -/
def interpVariable (reg : Registry) (v : String) (times : List Time)
    (dps : List ℚ) (fill : Bool) : Option Grid :=
  let vd := varDataFor reg v times
  if vd = [] then none
  else
    let cols := (List.range times.length).map
      (fun tIdx => interpColumn (readingsAt vd tIdx) dps)
    let doFill := fill && !(readingsAt vd (times.length - 1)).isEmpty
    some { data := if doFill then cols.map fillColumn else cols
           depths := dps
           times := times }

/-- The whole routine `perform_interpolation` (source lines 804-948),
for given configuration scalars.  `Except.error` covers the early-return
message boxes (`"No Data"`, `"No Variables"`, `"No Time Index"`) and the
generic exception handler, which fires in two ways: `np.arange` raising
on step zero, and — when the common time axis is empty (so the per-time
loop never runs) with `fill_values` enabled — the `UnboundLocalError`
raised by the stale loop variable `depths` at `if fill_values and
depths:` (line 929) on the first selected variable that any sensor
carries, before any grid has been stored.  Every other path stores one
grid per variable that at least one sensor carries, in selection
order. -/
def performInterpolation (reg : Registry) (vars : List String)
    (depthRes maxDepth : ℚ) (fill : Bool) :
    Except String (List (String × Grid)) :=
  if reg = [] then .error "No Data"
  else if vars = [] then .error "No Variables"
  else
    match commonTimeIndex (reg.map (fun p => p.2.index)) with
    | none => .error "No Time Index"
    | some times =>
      if depthRes = 0 then .error "Interpolation Error"
      else if times.isEmpty && fill &&
          vars.any (fun v => !(varDataFor reg v times).isEmpty) then
        .error "Interpolation Error"
      else
        .ok (vars.filterMap (fun v =>
          (interpVariable reg v times (depthPoints depthRes maxDepth) fill).map
            (fun g => (v, g))))

end WaterCol

namespace WaterCol

/-! ### General helper lemmas -/

lemma getD_range_map {α : Type} (f : ℕ → α) (n i : ℕ) (hi : i < n) (d : α) :
    ((List.range n).map f).getD i d = f i := by
  rw [List.getD_eq_getElem?_getD, List.getElem?_map]
  simp [List.getElem?_range hi]

lemma commonTimeIndex_isSome (axes : List (List Time)) (hne : axes ≠ []) :
    ∃ ts, commonTimeIndex axes = some ts := by
  match axes with
  | [] => exact absurd rfl hne
  | a :: rest =>
    unfold commonTimeIndex
    by_cases h1 : (a :: rest).all (fun b => b = a)
    · exact ⟨a, by simp [h1]⟩
    · by_cases h2 : rest.foldl (fun acc b => acc.filter (fun t => t ∈ b)) a = []
      · exact ⟨a, by simp only [h1, h2]; simp⟩
      · exact ⟨rest.foldl (fun acc b => acc.filter (fun t => t ∈ b)) a,
          by simp only [h1, h2]; simp [h2]⟩

lemma performInterpolation_eq (reg : Registry) (vars : List String)
    (r m : ℚ) (fl : Bool) (ts : List Time) (hreg : reg ≠ [])
    (hvars : vars ≠ [])
    (hts : commonTimeIndex (reg.map (fun p => p.2.index)) = some ts) :
    performInterpolation reg vars r m fl =
      if r = 0 then .error "Interpolation Error"
      else if ts.isEmpty && fl &&
          vars.any (fun v => !(varDataFor reg v ts).isEmpty) then
        .error "Interpolation Error"
      else .ok (vars.filterMap (fun v =>
        (interpVariable reg v ts (depthPoints r m) fl).map (fun g => (v, g)))) := by
  unfold performInterpolation
  rw [if_neg hreg, if_neg hvars, hts]

/-! ### Claim theorems -/

/-- Claim C7, counterexample: with `depth_resolution = 2` and
`max_depth = 5` the depth axis `np.arange(0, 5 + 2, 2) = [0, 2, 4, 6]`
has length `4`, not `floor(5/2) + 1 = 3` as the claim states. -/
theorem claim_C7_counterexample :
    (depthPoints 2 5).length = 4 ∧ ⌊(5 : ℚ) / 2⌋.toNat + 1 = 3 := by
  constructor
  · have hc : ⌈((5 : ℚ) + 2) / 2⌉ = 4 := by
      rw [Int.ceil_eq_iff]
      norm_num
    rw [depthPoints, hc]
    simp
  · have hf : ⌊(5 : ℚ) / 2⌋ = 2 := by norm_num
    rw [hf]
    rfl

/-- Claim C7, amended: for `Δd > 0` and `max_depth ≥ 0` the depth axis is
the regular sequence `0, Δd, 2Δd, ...` of length `⌈max_depth/Δd⌉ + 1`
(not `⌊max_depth/Δd⌋ + 1`); when `max_depth` is an exact multiple of `Δd`
the length is `⌊max_depth/Δd⌋ + 1` and the final point is exactly
`max_depth`; in every case at most one point exceeds `max_depth`. -/
theorem claim_C7_amended (r m : ℚ) (hr : 0 < r) (hm : 0 ≤ m) :
    depthPoints r m =
      (List.range (⌈m / r⌉.toNat + 1)).map (fun i : ℕ => (i : ℚ) * r) ∧
    ((∃ k : ℕ, m = (k : ℚ) * r) →
      (depthPoints r m).length = ⌊m / r⌋.toNat + 1 ∧
      (depthPoints r m).getLast? = some m) ∧
    (depthPoints r m).countP (fun d => decide (m < d)) ≤ 1 := by
  have hr' : r ≠ 0 := ne_of_gt hr
  have hdiv : (m + r) / r = m / r + 1 := by
    rw [add_div, div_self hr']
  have hceil : ⌈(m + r) / r⌉ = ⌈m / r⌉ + 1 := by
    rw [hdiv, Int.ceil_add_one]
  have hnn : 0 ≤ ⌈m / r⌉ := Int.ceil_nonneg (div_nonneg hm hr.le)
  have hlen : ⌈(m + r) / r⌉.toNat = ⌈m / r⌉.toNat + 1 := by omega
  have hEq : depthPoints r m =
      (List.range (⌈m / r⌉.toNat + 1)).map (fun i : ℕ => (i : ℚ) * r) := by
    unfold depthPoints
    rw [hlen]
  refine ⟨hEq, ?_, ?_⟩
  · rintro ⟨k, hk⟩
    have hk' : m / r = (k : ℚ) := by
      rw [hk, mul_div_cancel_right₀ _ hr']
    have hceilk : ⌈m / r⌉ = (k : ℤ) := by rw [hk', Int.ceil_natCast]
    have hfloork : ⌊m / r⌋ = (k : ℤ) := by rw [hk', Int.floor_natCast]
    constructor
    · rw [hEq, List.length_map, List.length_range, hceilk, hfloork]
    · rw [hEq, hceilk]
      have htn : ((k : ℤ)).toNat = k := Int.toNat_natCast k
      rw [htn, List.range_succ, List.map_append]
      simp [hk]
  · rw [hEq, List.countP_map]
    rw [List.range_succ, List.countP_append]
    have hzero :
        (List.range ⌈m / r⌉.toNat).countP
          ((fun d => decide (m < d)) ∘ fun i : ℕ => (i : ℚ) * r) = 0 := by
      apply List.countP_eq_zero.mpr
      intro i hi
      rw [List.mem_range] at hi
      have hiz : (i : ℤ) < ⌈m / r⌉ := by omega
      have hiq : (i : ℚ) < m / r := by
        have h2 := Int.lt_ceil.mp hiz
        push_cast at h2 ⊢
        exact h2
      have h3 : (i : ℚ) * r < m := (lt_div_iff₀ hr).mp hiq
      simp [not_lt.mpr h3.le]
    rw [hzero]
    simp [List.countP_cons]
    split <;> omega

end WaterCol

namespace WaterCol

/-- Claim C1, counterexample: with the malformed configuration
`depth_resolution = -1`, `max_depth = 0` (so `depth_resolution <= 0`), the
engine does NOT signal a configuration error and does NOT stop before
computation: it runs to completion and stores a grid for the variable
(over the one-point axis `np.arange(0, -1, -1) = [0]`). -/
theorem claim_C1_counterexample :
    performInterpolation [(1, ⟨[0], [("T", [some 1])]⟩)] ["T"] (-1) 0 false
      = .ok [("T", ⟨[[some 1]], [0], [0]⟩)] := by
  have h : depthPoints (-1) 0 = [0] := by
    have hc : ⌈((0 : ℚ) + -1) / -1⌉ = 1 := by
      rw [Int.ceil_eq_iff]
      norm_num
    rw [depthPoints, hc]
    simp [List.range_succ]
  simp only [performInterpolation, h]
  rfl

/-- Claim C1, amended: the engine performs no configuration validation.
For any non-empty registry and non-empty variable selection whose common
time axis is non-empty, every configuration with `depth_resolution ≠ 0`
— including `depth_resolution < 0` and `max_depth < 0` — produces a
normal `ok` result with grids stored; no configuration is rejected
before computation.  The errors that do surface are generic runtime
failures raised mid-computation, after the time axis is derived:
`depth_resolution = 0` makes `np.arange` raise, and an empty common time
axis with `fill_extrapolated` enabled (and at least one selected
variable carried by a sensor) trips an `UnboundLocalError` on the stale
fill-gate variable; both are reported through the generic exception
handler, not as a configuration error. -/
theorem claim_C1_amended (reg : Registry) (vars : List String) (r m : ℚ)
    (fl : Bool) (ts : List Time) (hreg : reg ≠ []) (hvars : vars ≠ [])
    (hts : commonTimeIndex (reg.map (fun p => p.2.index)) = some ts) :
    (r ≠ 0 → ts ≠ [] → ∃ out, performInterpolation reg vars r m fl = .ok out) ∧
    (r = 0 → performInterpolation reg vars r m fl = .error "Interpolation Error") ∧
    (r ≠ 0 → ts = [] → fl = true →
      vars.any (fun v => !(varDataFor reg v ts).isEmpty) = true →
      performInterpolation reg vars r m fl = .error "Interpolation Error") := by
  rw [performInterpolation_eq reg vars r m fl ts hreg hvars hts]
  refine ⟨?_, ?_, ?_⟩
  · intro hr htne
    rw [if_neg hr, if_neg (by simp [List.isEmpty_iff, htne])]
    exact ⟨_, rfl⟩
  · intro hr
    rw [if_pos hr]
  · intro hr hte hfl hany
    subst hte
    subst hfl
    rw [if_neg hr, if_pos (by simp [hany])]

/-- Witness for C1 amended at concrete inputs: the `depth_resolution = 0`
error case and the normal `ok` case. -/
theorem claim_C1_amended_witness :
    performInterpolation [(1, ⟨[0], [("T", [some 1])]⟩)] ["T"] 0 0 false
      = .error "Interpolation Error" :=
  (claim_C1_amended [(1, ⟨[0], [("T", [some 1])]⟩)] ["T"] 0 0 false [0]
    (by simp) (by simp) rfl).2.1 rfl

/-- Claim C2: the boundary fill pass is NOT per-time-column independent.
At this input the first time column has valid cells at depth indices 1
and 2 after interpolation (`[none, some 10, some 20, none]`), so with
`fill_extrapolated = true` the claim requires its boundary cells to be
filled to `10` and `20`; but because the LAST time column has no valid
readings, the stale loop variable `depths` in
`if fill_values and depths:` is empty, the whole fill pass is skipped,
and the first column keeps its missing boundary cells. -/
theorem claim_C2_fill_skipped :
    performInterpolation
      [(1, ⟨[0, 1], [("T", [some 10, none])]⟩),
       (2, ⟨[0, 1], [("T", [some 20, none])]⟩)] ["T"] 1 3 true
      = .ok [("T", ⟨[[none, some 10, some 20, none],
                     [none, none, none, none]], [0, 1, 2, 3], [0, 1]⟩)] := by
  have h : depthPoints 1 3 = [0, 1, 2, 3] := by
    have hc : ⌈((3 : ℚ) + 1) / 1⌉ = 4 := by
      rw [Int.ceil_eq_iff]
      norm_num
    rw [depthPoints, hc]
    show List.map _ (List.range 4) = _
    simp [List.range_succ]
  simp only [performInterpolation, h]
  rfl

/-- Claim C9: the interpolation computation is deterministic — it is a
pure function of the registry, the selected variables, the configuration
scalars and the fill flag, so two runs on equal inputs return equal
results (same grids cell for cell, same depth axis, same time axis). -/
theorem claim_C9_deterministic (reg reg' : Registry) (vars vars' : List String)
    (r r' m m' : ℚ) (fl fl' : Bool) (h1 : reg = reg') (h2 : vars = vars')
    (h3 : r = r') (h4 : m = m') (h5 : fl = fl') :
    performInterpolation reg vars r m fl =
      performInterpolation reg' vars' r' m' fl' := by
  subst h1 h2 h3 h4 h5
  rfl

/-- Witness for C9 at a concrete input. -/
theorem claim_C9_deterministic_witness :
    performInterpolation [(1, ⟨[0], [("T", [some 1])]⟩)] ["T"] 1 2 true =
      performInterpolation [(1, ⟨[0], [("T", [some 1])]⟩)] ["T"] 1 2 true :=
  claim_C9_deterministic _ _ _ _ _ _ _ _ _ _ rfl rfl rfl rfl rfl

end WaterCol

namespace WaterCol

lemma commonTimeIndex_cons (a : List Time) (rest : List (List Time)) :
    commonTimeIndex (a :: rest) =
      if (a :: rest).all (fun b => b = a) then some a
      else
        if rest.foldl (fun acc b => acc.filter (fun t => t ∈ b)) a = [] then some a
        else some (rest.foldl (fun acc b => acc.filter (fun t => t ∈ b)) a) := rfl

lemma foldInter_mem (a : List Time) (rest : List (List Time)) (t : Time) :
    t ∈ rest.foldl (fun acc b => acc.filter (fun u => u ∈ b)) a ↔
      t ∈ a ∧ ∀ b ∈ rest, t ∈ b := by
  induction rest generalizing a with
  | nil => simp
  | cons b bs ih =>
    simp only [List.foldl_cons]
    rw [ih]
    simp only [List.mem_filter, List.forall_mem_cons, decide_eq_true_eq]
    tauto

lemma foldInter_sorted (a : List Time) (rest : List (List Time))
    (ha : List.Sorted (· < ·) a) :
    List.Sorted (· < ·) (rest.foldl (fun acc b => acc.filter (fun u => u ∈ b)) a) := by
  induction rest generalizing a with
  | nil => exact ha
  | cons b bs ih => exact ih _ (ha.filter _)

lemma sorted_lt_nodup {l : List Time} (h : List.Sorted (· < ·) l) : l.Nodup :=
  h.imp ne_of_lt

example : True := trivial

/-- Claim C3: the Common Time Axis is the shared axis when all sensor
axes are identical to the first; otherwise the ascending set-intersection
of all axes; and when that intersection is empty, the first sensor's axis
with a non-fatal warning.  In every case (given the data model's strictly
increasing sensor axes) the result is strictly increasing and
duplicate-free. -/
theorem claim_C3_common_time_axis (axes : List (List Time)) (hne : axes ≠ [])
    (hsorted : ∀ a ∈ axes, List.Sorted (· < ·) a) :
    ∃ res, commonTimeIndex axes = some res ∧
      List.Sorted (· < ·) res ∧ res.Nodup ∧
      ((∀ a ∈ axes, a = axes.headD []) → res = axes.headD []) ∧
      (¬(∀ a ∈ axes, a = axes.headD []) →
        ((∃ t, ∀ a ∈ axes, t ∈ a) →
          ∀ t : Time, t ∈ res ↔ ∀ a ∈ axes, t ∈ a) ∧
        (¬(∃ t, ∀ a ∈ axes, t ∈ a) → res = axes.headD [])) := by
  match axes with
  | [] => exact absurd rfl hne
  | a :: rest =>
    have hsa : List.Sorted (· < ·) a := hsorted a (List.mem_cons_self a rest)
    have hallIff : ((a :: rest).all (fun b => decide (b = a)) = true) ↔
        (∀ b ∈ a :: rest, b = a) := by
      simp [List.all_eq_true]
    rw [commonTimeIndex_cons]
    by_cases hall : (a :: rest).all (fun b => decide (b = a)) = true
    · refine ⟨a, by simp [hall], hsa, sorted_lt_nodup hsa, fun _ => rfl, ?_⟩
      intro hcon
      exact absurd (fun b hb => hallIff.mp hall b hb) hcon
    · rw [if_neg hall]
      by_cases hin : rest.foldl (fun acc b => acc.filter (fun u => u ∈ b)) a = []
      · refine ⟨a, by simp [hin], hsa, sorted_lt_nodup hsa, fun _ => rfl, ?_⟩
        intro _
        constructor
        · rintro ⟨t, ht⟩
          have : t ∈ rest.foldl (fun acc b => acc.filter (fun u => u ∈ b)) a := by
            rw [foldInter_mem]
            exact ⟨ht a (List.mem_cons_self a rest),
              fun b hb => ht b (List.mem_cons_of_mem a hb)⟩
          rw [hin] at this
          exact absurd this (List.not_mem_nil t)
        · intro _
          rfl
      · have hs := foldInter_sorted a rest hsa
        refine ⟨_, by simp [hin], hs, sorted_lt_nodup hs, ?_, ?_⟩
        · intro hid
          exact absurd (fun b hb => hid b hb) (hallIff.not.mp hall)
        · intro _
          refine ⟨fun _ t => ?_, fun hcon => ?_⟩
          · rw [foldInter_mem]
            simp [List.forall_mem_cons]
          · obtain ⟨t, ht⟩ := List.exists_mem_of_ne_nil _ hin
            rw [foldInter_mem] at ht
            exact absurd ⟨t, fun b hb => by
              rcases List.mem_cons.mp hb with h | h
              · subst h; exact ht.1
              · exact ht.2 b h⟩ hcon

/-- Witness for C3 at concrete axes sharing timestamps 5 and 9. -/
theorem claim_C3_witness :
    ∃ res, commonTimeIndex [[0, 5, 9], [5, 9, 11]] = some res ∧
      List.Sorted (· < ·) res ∧ res.Nodup ∧
      ((∀ a ∈ [[(0 : Time), 5, 9], [5, 9, 11]], a = [[(0 : Time), 5, 9], [5, 9, 11]].headD []) →
        res = [[(0 : Time), 5, 9], [5, 9, 11]].headD []) ∧
      (¬(∀ a ∈ [[(0 : Time), 5, 9], [5, 9, 11]], a = [[(0 : Time), 5, 9], [5, 9, 11]].headD []) →
        ((∃ t, ∀ a ∈ [[(0 : Time), 5, 9], [5, 9, 11]], t ∈ a) →
          ∀ t : Time, t ∈ res ↔ ∀ a ∈ [[(0 : Time), 5, 9], [5, 9, 11]], t ∈ a) ∧
        (¬(∃ t, ∀ a ∈ [[(0 : Time), 5, 9], [5, 9, 11]], t ∈ a) →
          res = [[(0 : Time), 5, 9], [5, 9, 11]].headD [])) :=
  claim_C3_common_time_axis [[0, 5, 9], [5, 9, 11]] (by simp) (by decide)

end WaterCol

namespace WaterCol

lemma getD_map_lt {α β : Type} (f : α → β) (l : List α) (i : ℕ)
    (hi : i < l.length) (db : β) (da : α) :
    (l.map f).getD i db = f (l.getD i da) := by
  rw [List.getD_eq_getElem?_getD, List.getElem?_map,
    List.getD_eq_getElem?_getD, List.getElem?_eq_getElem hi]
  simp

lemma getD_map_const {α β : Type} (l : List α) (c : β) (i : ℕ) (db : β) :
    (l.map (fun _ => c)).getD i db = if i < l.length then c else db := by
  cases l with
  | nil => simp
  | cons a t =>
    by_cases hi : i < (a :: t).length
    · rw [if_pos hi, getD_map_lt _ _ _ hi db a]
    · rw [if_neg hi, List.getD_eq_getElem?_getD, List.getElem?_map,
        List.getElem?_eq_none (by simpa using not_lt.mp hi)]
      rfl

lemma headD_le_of_mem {l : List ℕ} (hs : l.Pairwise (· < ·)) {j : ℕ}
    (hj : j ∈ l) : l.headD 0 ≤ j := by
  cases l with
  | nil => exact absurd hj (List.not_mem_nil j)
  | cons a t =>
    rcases List.mem_cons.mp hj with h | h
    · exact le_of_eq h.symm
    · exact le_of_lt ((List.pairwise_cons.mp hs).1 j h)

lemma le_getLast?_of_mem {l : List ℕ} (hs : l.Pairwise (· < ·)) :
    ∀ j ∈ l, ∃ x, l.getLast? = some x ∧ j ≤ x := by
  induction l with
  | nil => intro j hj; exact absurd hj (List.not_mem_nil j)
  | cons a t ih =>
    intro j hj
    cases t with
    | nil =>
      rcases List.mem_cons.mp hj with h | h
      · exact ⟨a, rfl, le_of_eq h⟩
      · exact absurd h (List.not_mem_nil j)
    | cons b u =>
      have hs' := (List.pairwise_cons.mp hs).2
      rw [List.getLast?_cons_cons]
      rcases List.mem_cons.mp hj with h | h
      · obtain ⟨x, hx, hbx⟩ := ih hs' b (List.mem_cons_self b u)
        refine ⟨x, hx, ?_⟩
        subst h
        exact le_trans
          (le_of_lt ((List.pairwise_cons.mp hs).1 b (List.mem_cons_self b u))) hbx
      · exact ih hs' j h

lemma le_getLastD_of_mem {l : List ℕ} (hs : l.Pairwise (· < ·)) {j : ℕ}
    (hj : j ∈ l) : j ≤ l.getLastD 0 := by
  obtain ⟨x, hx, hjx⟩ := le_getLast?_of_mem hs j hj
  rw [List.getLastD_eq_getLast?, hx]
  exact hjx

lemma valid_pairwise (col : List (Option ℚ)) :
    ((List.range col.length).filter
      (fun i => (col.getD i none).isSome)).Pairwise (· < ·) :=
  (List.pairwise_lt_range _).filter _

lemma fillColumn_length (col : List (Option ℚ)) :
    (fillColumn col).length = col.length := by
  unfold fillColumn
  by_cases h : (List.range col.length).filter
      (fun i => (col.getD i none).isSome) = []
  · rw [if_pos h]
  · rw [if_neg h]
    simp

lemma fillColumn_of_valid_nil (col : List (Option ℚ))
    (h : (List.range col.length).filter
      (fun i => (col.getD i none).isSome) = []) :
    fillColumn col = col := by
  unfold fillColumn
  rw [if_pos h]

lemma fillColumn_getD (col : List (Option ℚ)) (j : ℕ) (hj : j < col.length)
    (hne : (List.range col.length).filter
      (fun i => (col.getD i none).isSome) ≠ []) :
    (fillColumn col).getD j none =
      (if j < ((List.range col.length).filter
          (fun i => (col.getD i none).isSome)).headD 0 then
        col.getD (((List.range col.length).filter
          (fun i => (col.getD i none).isSome)).headD 0) none
      else if ((List.range col.length).filter
          (fun i => (col.getD i none).isSome)).getLastD 0 < j then
        col.getD (((List.range col.length).filter
          (fun i => (col.getD i none).isSome)).getLastD 0) none
      else col.getD j none) := by
  unfold fillColumn
  rw [if_neg hne]
  exact getD_range_map _ _ _ hj _

lemma mem_valid_iff (col : List (Option ℚ)) (j : ℕ) :
    j ∈ (List.range col.length).filter (fun i => (col.getD i none).isSome) ↔
      j < col.length ∧ (col.getD j none).isSome := by
  simp [List.mem_filter, List.mem_range]

lemma fillColumn_preserves_some (col : List (Option ℚ)) (j : ℕ) (v : ℚ)
    (hj : j < col.length) (h : col.getD j none = some v) :
    (fillColumn col).getD j none = some v := by
  have hmem : j ∈ (List.range col.length).filter
      (fun i => (col.getD i none).isSome) :=
    (mem_valid_iff col j).mpr ⟨hj, by rw [h]; rfl⟩
  have hne := List.ne_nil_of_mem hmem
  rw [fillColumn_getD col j hj hne,
    if_neg (not_lt.mpr (headD_le_of_mem (valid_pairwise col) hmem)),
    if_neg (not_lt.mpr (le_getLastD_of_mem (valid_pairwise col) hmem))]
  exact h

lemma getD_of_length_le {α : Type} (l : List α) (i : ℕ) (d : α)
    (h : l.length ≤ i) : l.getD i d = d := by
  rw [List.getD_eq_getElem?_getD, List.getElem?_eq_none h]
  rfl

lemma interpVariable_column (reg : Registry) (v : String) (times : List Time)
    (dps : List ℚ) (fill : Bool) (g : Grid) (tIdx : ℕ)
    (hg : interpVariable reg v times dps fill = some g)
    (ht : tIdx < times.length) :
    g.data.getD tIdx [] =
      (if fill && !(readingsAt (varDataFor reg v times)
          (times.length - 1)).isEmpty then
        fillColumn (interpColumn (readingsAt (varDataFor reg v times) tIdx) dps)
      else
        interpColumn (readingsAt (varDataFor reg v times) tIdx) dps) := by
  unfold interpVariable at hg
  by_cases hvd : varDataFor reg v times = []
  · rw [if_pos hvd] at hg
    exact absurd hg (by simp)
  · rw [if_neg hvd] at hg
    have hgd := congrArg Grid.data (Option.some_injective _ hg)
    dsimp at hgd
    rw [← hgd]
    by_cases hfill : fill && !(readingsAt (varDataFor reg v times)
        (times.length - 1)).isEmpty
    · rw [if_pos hfill, if_pos hfill, List.map_map]
      exact getD_range_map _ _ _ ht []
    · rw [if_neg hfill, if_neg hfill]
      exact getD_range_map _ _ _ ht []

lemma interpColumn_nil (dps : List ℚ) :
    interpColumn [] dps = dps.map (fun _ => none) := rfl

lemma interpColumn_singleton (d0 v0 : ℚ) (dps : List ℚ) :
    interpColumn [(d0, v0)] dps = dps.map (fun _ => some v0) := rfl

lemma getD_map_none (dps : List ℚ) (j : ℕ) :
    (dps.map (fun _ => (none : Option ℚ))).getD j none = none := by
  rw [getD_map_const]
  exact ite_self none

/-- Claim C6: the degenerate-case policy. With zero valid readings at a
time index the whole grid column at that time is missing; with exactly
one valid reading the whole column carries that single value.  This holds
in the final stored grid, i.e. also after the optional fill pass. -/
theorem claim_C6_degenerate (reg : Registry) (v : String) (times : List Time)
    (dps : List ℚ) (fl : Bool) (g : Grid) (tIdx : ℕ)
    (hg : interpVariable reg v times dps fl = some g)
    (ht : tIdx < times.length) :
    (readingsAt (varDataFor reg v times) tIdx = [] →
      ∀ dIdx, g.cell dIdx tIdx = none) ∧
    (∀ d0 v0, readingsAt (varDataFor reg v times) tIdx = [(d0, v0)] →
      ∀ dIdx, dIdx < dps.length → g.cell dIdx tIdx = some v0) := by
  have hcol := interpVariable_column reg v times dps fl g tIdx hg ht
  constructor
  · intro hk dIdx
    rw [hk, interpColumn_nil] at hcol
    rw [Grid.cell, hcol]
    by_cases hb : (fl && !(readingsAt (varDataFor reg v times)
        (times.length - 1)).isEmpty) = true
    · rw [if_pos hb, fillColumn_of_valid_nil]
      · exact getD_map_none dps dIdx
      · apply List.filter_eq_nil_iff.mpr
        intro a _
        simp [getD_map_none]
    · rw [if_neg hb]
      exact getD_map_none dps dIdx
  · intro d0 v0 hk dIdx hdlen
    rw [hk, interpColumn_singleton] at hcol
    have hsome : (dps.map (fun _ => some v0)).getD dIdx none = some v0 := by
      rw [getD_map_const, if_pos hdlen]
    rw [Grid.cell, hcol]
    by_cases hb : (fl && !(readingsAt (varDataFor reg v times)
        (times.length - 1)).isEmpty) = true
    · rw [if_pos hb]
      exact fillColumn_preserves_some _ dIdx v0 (by simpa using hdlen) hsome
    · rw [if_neg hb]
      exact hsome

/-- Witness for C6 at a concrete one-sensor input with a single valid
reading at the chosen time index. -/
theorem claim_C6_witness :
    (readingsAt (varDataFor [(1, ⟨[0, 1], [("T", [some 7, none])]⟩)]
        "T" [0, 1]) 0 = [] →
      ∀ dIdx, Grid.cell ⟨[[some 7, some 7], [none, none]], [0, 1], [0, 1]⟩
        dIdx 0 = none) ∧
    (∀ d0 v0, readingsAt (varDataFor [(1, ⟨[0, 1], [("T", [some 7, none])]⟩)]
        "T" [0, 1]) 0 = [(d0, v0)] →
      ∀ dIdx, dIdx < ([0, 1] : List ℚ).length →
        Grid.cell ⟨[[some 7, some 7], [none, none]], [0, 1], [0, 1]⟩
          dIdx 0 = some v0) :=
  claim_C6_degenerate [(1, ⟨[0, 1], [("T", [some 7, none])]⟩)] "T" [0, 1]
    [0, 1] true ⟨[[some 7, some 7], [none, none]], [0, 1], [0, 1]⟩ 0
    rfl (by decide)

/-- Witness for C7 amended at `depth_resolution = 1`, `max_depth = 2`. -/
theorem claim_C7_amended_witness :
    depthPoints 1 2 =
      (List.range (⌈(2 : ℚ) / 1⌉.toNat + 1)).map (fun i : ℕ => (i : ℚ) * 1) ∧
    ((∃ k : ℕ, (2 : ℚ) = (k : ℚ) * 1) →
      (depthPoints 1 2).length = ⌊(2 : ℚ) / 1⌋.toNat + 1 ∧
      (depthPoints 1 2).getLast? = some 2) ∧
    (depthPoints 1 2).countP (fun d => decide ((2 : ℚ) < d)) ≤ 1 :=
  claim_C7_amended 1 2 (by norm_num) (by norm_num)

end WaterCol

namespace WaterCol

/-! ### Sorted reading list machinery -/

lemma sortReadings_perm (rs : List (ℚ × ℚ)) :
    List.Perm (sortReadings rs) rs :=
  List.perm_insertionSort depthLE rs

lemma sortReadings_length (rs : List (ℚ × ℚ)) :
    (sortReadings rs).length = rs.length :=
  (sortReadings_perm rs).length_eq

lemma sortReadings_mem (rs : List (ℚ × ℚ)) (p : ℚ × ℚ) :
    p ∈ sortReadings rs ↔ p ∈ rs :=
  (sortReadings_perm rs).mem_iff

lemma sortReadings_strict (rs : List (ℚ × ℚ))
    (hnd : (rs.map Prod.fst).Nodup) :
    (sortReadings rs).Pairwise (fun a b => a.1 < b.1) := by
  have hle : (sortReadings rs).Pairwise depthLE :=
    List.sorted_insertionSort depthLE rs
  have hnd' : ((sortReadings rs).map Prod.fst).Nodup :=
    ((sortReadings_perm rs).map Prod.fst).nodup_iff.mpr hnd
  have hne : (sortReadings rs).Pairwise (fun a b => a.1 ≠ b.1) :=
    List.pairwise_map.mp hnd'
  exact (hle.and hne).imp (fun h => lt_of_le_of_ne h.1 h.2)

lemma getD_eq_getElem' {α : Type} (l : List α) (i : ℕ) (d : α)
    (h : i < l.length) : l.getD i d = l[i] := by
  rw [List.getD_eq_getElem?_getD, List.getElem?_eq_getElem h]
  rfl

lemma pairwise_getD {α : Type} {R : α → α → Prop} (l : List α)
    (h : l.Pairwise R) (i j : ℕ) (d : α) (hij : i < j) (hj : j < l.length) :
    R (l.getD i d) (l.getD j d) := by
  rw [getD_eq_getElem' _ _ _ (lt_trans hij hj), getD_eq_getElem' _ _ _ hj]
  exact List.pairwise_iff_getElem.mp h i j _ _ hij

lemma getD_mem' {α : Type} (l : List α) (i : ℕ) (d : α) (h : i < l.length) :
    l.getD i d ∈ l := by
  rw [getD_eq_getElem' _ _ _ h]
  exact List.getElem_mem h

lemma mem_getD {α : Type} (l : List α) (x d : α) (h : x ∈ l) :
    ∃ i, i < l.length ∧ l.getD i d = x := by
  obtain ⟨i, hi, hx⟩ := List.mem_iff_getElem.mp h
  exact ⟨i, hi, by rw [getD_eq_getElem' _ _ _ hi]; exact hx⟩

lemma brIdx_cons (a : ℚ × ℚ) (t : List (ℚ × ℚ)) (x : ℚ) :
    brIdx (a :: t) x = brIdx t x + if a.1 < x then 1 else 0 := by
  simp only [brIdx, List.countP_cons]
  by_cases pa : a.1 < x
  · rw [if_pos (decide_eq_true pa), if_pos pa]
  · rw [if_neg (by simp [pa]), if_neg pa]

lemma brIdx_tail_zero (a : ℚ × ℚ) (t : List (ℚ × ℚ)) (x : ℚ)
    (hs : (a :: t).Pairwise (fun p q => p.1 < q.1)) (pa : ¬a.1 < x) :
    brIdx t x = 0 := by
  apply List.countP_eq_zero.mpr
  intro b hb
  have hab : a.1 < b.1 := (List.pairwise_cons.mp hs).1 b hb
  simp only [decide_eq_true_eq]
  exact not_lt.mpr (le_of_lt (lt_of_le_of_lt (not_lt.mp pa) hab))

lemma brIdx_lt_getD (l : List (ℚ × ℚ)) (x : ℚ)
    (hs : l.Pairwise (fun a b => a.1 < b.1)) :
    ∀ j < brIdx l x, (l.getD j (0, 0)).1 < x := by
  induction l with
  | nil => intro j hj; simp [brIdx] at hj
  | cons a t ih =>
    intro j hj
    rw [brIdx_cons] at hj
    by_cases pa : a.1 < x
    · rw [if_pos pa] at hj
      cases j with
      | zero => exact pa
      | succ j' => exact ih (List.pairwise_cons.mp hs).2 j' (by omega)
    · rw [if_neg pa, brIdx_tail_zero a t x hs pa] at hj
      omega

lemma brIdx_le_getD (l : List (ℚ × ℚ)) (x : ℚ)
    (hs : l.Pairwise (fun a b => a.1 < b.1)) :
    ∀ j, brIdx l x ≤ j → j < l.length → x ≤ (l.getD j (0, 0)).1 := by
  induction l with
  | nil => intro j _ hj; simp at hj
  | cons a t ih =>
    intro j hij hj
    rw [brIdx_cons] at hij
    by_cases pa : a.1 < x
    · rw [if_pos pa] at hij
      cases j with
      | zero => omega
      | succ j' =>
        exact ih (List.pairwise_cons.mp hs).2 j' (by omega) (by simpa using hj)
    · cases j with
      | zero => exact not_lt.mp pa
      | succ j' =>
        have hj' : j' < t.length := by simpa using hj
        have hmem : t.getD j' (0, 0) ∈ t := getD_mem' t j' (0, 0) hj'
        exact le_of_lt (lt_of_le_of_lt (not_lt.mp pa)
          ((List.pairwise_cons.mp hs).1 _ hmem))

lemma brIdx_le_length (l : List (ℚ × ℚ)) (x : ℚ) : brIdx l x ≤ l.length :=
  List.countP_le_length _

lemma brIdx_le_pred (l : List (ℚ × ℚ)) (x : ℚ)
    (hs : l.Pairwise (fun a b => a.1 < b.1))
    (hhi : x ≤ (l.getD (l.length - 1) (0, 0)).1) :
    brIdx l x ≤ l.length - 1 := by
  by_contra hcon
  have hlt : l.length - 1 < brIdx l x := not_le.mp hcon
  have := brIdx_lt_getD l x hs (l.length - 1) hlt
  exact absurd hhi (not_le.mpr this)

lemma interpAt_in_range (l : List (ℚ × ℚ)) (x : ℚ)
    (hs : l.Pairwise (fun a b => a.1 < b.1)) (hn : 2 ≤ l.length)
    (hlo : (l.getD 0 (0, 0)).1 ≤ x)
    (hhi : x ≤ (l.getD (l.length - 1) (0, 0)).1) :
    interpAt l x = some (brVal l x) := by
  have hne : l.countP (fun p => decide (p.1 < x)) ≠ l.length := by
    have h1 := brIdx_le_pred l x hs hhi
    rw [brIdx] at h1
    omega
  simp only [interpAt, brVal, brIdx]
  rw [if_pos ⟨hlo, hhi⟩]
  by_cases hi0 : l.countP (fun p => decide (p.1 < x)) = 0
  · rw [if_pos hi0, if_pos hi0]
  · rw [if_neg hi0, if_neg hi0, if_neg hne]
    by_cases hx : x = (l.getD (l.countP (fun p => decide (p.1 < x))) (0, 0)).1
    · rw [if_pos hx, if_pos hx]
    · rw [if_neg hx, if_neg hx]

lemma interpAt_isSome (l : List (ℚ × ℚ)) (x : ℚ) :
    (interpAt l x).isSome ↔
      ((l.getD 0 (0, 0)).1 ≤ x ∧ x ≤ (l.getD (l.length - 1) (0, 0)).1) := by
  simp only [interpAt]
  by_cases h : (l.getD 0 (0, 0)).1 ≤ x ∧ x ≤ (l.getD (l.length - 1) (0, 0)).1
  · rw [if_pos h]
    split_ifs <;> exact iff_of_true (by simp) h
  · rw [if_neg h]
    exact iff_of_false (by simp) h

lemma vals_mono (l : List (ℚ × ℚ)) (hvm : l.Pairwise (fun a b => a.2 ≤ b.2))
    (j k : ℕ) (hjk : j ≤ k) (hk : k < l.length) :
    (l.getD j (0, 0)).2 ≤ (l.getD k (0, 0)).2 := by
  rcases eq_or_lt_of_le hjk with h | h
  · rw [h]
  · exact pairwise_getD l hvm j k _ h hk

lemma brVal_segment (l : List (ℚ × ℚ)) (x : ℚ)
    (hs : l.Pairwise (fun a b => a.1 < b.1)) (hn : 2 ≤ l.length)
    (hi0 : brIdx l x ≠ 0) (hhi : x ≤ (l.getD (l.length - 1) (0, 0)).1) :
    (l.getD (brIdx l x - 1) (0, 0)).1 < x ∧
      x ≤ (l.getD (brIdx l x) (0, 0)).1 ∧
      (l.getD (brIdx l x - 1) (0, 0)).1 < (l.getD (brIdx l x) (0, 0)).1 := by
  have hip : brIdx l x ≤ l.length - 1 := brIdx_le_pred l x hs hhi
  refine ⟨brIdx_lt_getD l x hs _ (by omega), brIdx_le_getD l x hs _ le_rfl (by omega), ?_⟩
  exact pairwise_getD l hs _ _ _ (by omega) (by omega)

lemma brVal_lower (l : List (ℚ × ℚ)) (x : ℚ)
    (hs : l.Pairwise (fun a b => a.1 < b.1))
    (hvm : l.Pairwise (fun a b => a.2 ≤ b.2)) (hn : 2 ≤ l.length)
    (hhi : x ≤ (l.getD (l.length - 1) (0, 0)).1) :
    (l.getD (brIdx l x - 1) (0, 0)).2 ≤ brVal l x := by
  have hip : brIdx l x ≤ l.length - 1 := brIdx_le_pred l x hs hhi
  rw [brVal]
  by_cases hi0 : brIdx l x = 0
  · rw [if_pos hi0, hi0]
  · rw [if_neg hi0]
    by_cases hx : x = (l.getD (brIdx l x) (0, 0)).1
    · rw [if_pos hx]
      exact vals_mono l hvm _ _ (by omega) (by omega)
    · rw [if_neg hx]
      obtain ⟨hdB, hxle, hden⟩ := brVal_segment l x hs hn hi0 hhi
      have hxlt : x < (l.getD (brIdx l x) (0, 0)).1 := lt_of_le_of_ne hxle hx
      have hVle : (l.getD (brIdx l x - 1) (0, 0)).2 ≤ (l.getD (brIdx l x) (0, 0)).2 :=
        vals_mono l hvm _ _ (by omega) (by omega)
      have hw0 : 0 ≤ (x - (l.getD (brIdx l x - 1) (0, 0)).1) /
          ((l.getD (brIdx l x) (0, 0)).1 - (l.getD (brIdx l x - 1) (0, 0)).1) :=
        div_nonneg (by linarith) (by linarith)
      have key := mul_nonneg hw0 (sub_nonneg.mpr hVle)
      nlinarith [key]

lemma brVal_upper (l : List (ℚ × ℚ)) (x : ℚ)
    (hs : l.Pairwise (fun a b => a.1 < b.1))
    (hvm : l.Pairwise (fun a b => a.2 ≤ b.2)) (hn : 2 ≤ l.length)
    (hhi : x ≤ (l.getD (l.length - 1) (0, 0)).1) :
    brVal l x ≤ (l.getD (brIdx l x) (0, 0)).2 := by
  have hip : brIdx l x ≤ l.length - 1 := brIdx_le_pred l x hs hhi
  rw [brVal]
  by_cases hi0 : brIdx l x = 0
  · rw [if_pos hi0, hi0]
  · rw [if_neg hi0]
    by_cases hx : x = (l.getD (brIdx l x) (0, 0)).1
    · rw [if_pos hx]
    · rw [if_neg hx]
      obtain ⟨hdB, hxle, hden⟩ := brVal_segment l x hs hn hi0 hhi
      have hxlt : x < (l.getD (brIdx l x) (0, 0)).1 := lt_of_le_of_ne hxle hx
      have hVle : (l.getD (brIdx l x - 1) (0, 0)).2 ≤ (l.getD (brIdx l x) (0, 0)).2 :=
        vals_mono l hvm _ _ (by omega) (by omega)
      have hw1 : (x - (l.getD (brIdx l x - 1) (0, 0)).1) /
          ((l.getD (brIdx l x) (0, 0)).1 - (l.getD (brIdx l x - 1) (0, 0)).1) ≤ 1 :=
        (div_le_one (by linarith)).mpr (by linarith)
      have hw0 : 0 ≤ (x - (l.getD (brIdx l x - 1) (0, 0)).1) /
          ((l.getD (brIdx l x) (0, 0)).1 - (l.getD (brIdx l x - 1) (0, 0)).1) :=
        div_nonneg (by linarith) (by linarith)
      have key := mul_nonneg (sub_nonneg.mpr hw1) (sub_nonneg.mpr hVle)
      nlinarith [key]

lemma brIdx_mono (l : List (ℚ × ℚ)) (x x' : ℚ) (hxx : x ≤ x') :
    brIdx l x ≤ brIdx l x' := by
  apply List.countP_mono_left
  intro p _ hp
  simp only [decide_eq_true_eq] at hp ⊢
  exact lt_of_lt_of_le hp hxx

lemma brVal_mono (l : List (ℚ × ℚ)) (x x' : ℚ)
    (hs : l.Pairwise (fun a b => a.1 < b.1))
    (hvm : l.Pairwise (fun a b => a.2 ≤ b.2)) (hn : 2 ≤ l.length)
    (hxx : x ≤ x') (hhi : x' ≤ (l.getD (l.length - 1) (0, 0)).1) :
    brVal l x ≤ brVal l x' := by
  have hhix : x ≤ (l.getD (l.length - 1) (0, 0)).1 := le_trans hxx hhi
  have hip : brIdx l x ≤ l.length - 1 := brIdx_le_pred l x hs hhix
  have hip' : brIdx l x' ≤ l.length - 1 := brIdx_le_pred l x' hs hhi
  rcases lt_or_eq_of_le (brIdx_mono l x x' hxx) with hlt | heq
  · calc brVal l x ≤ (l.getD (brIdx l x) (0, 0)).2 := brVal_upper l x hs hvm hn hhix
      _ ≤ (l.getD (brIdx l x' - 1) (0, 0)).2 := vals_mono l hvm _ _ (by omega) (by omega)
      _ ≤ brVal l x' := brVal_lower l x' hs hvm hn hhi
  · by_cases hi0 : brIdx l x = 0
    · rw [brVal, brVal, if_pos hi0, if_pos (heq ▸ hi0)]
    · have hi0' : brIdx l x' ≠ 0 := heq ▸ hi0
      by_cases hx : x = (l.getD (brIdx l x) (0, 0)).1
      · have hx'le : x' ≤ (l.getD (brIdx l x) (0, 0)).1 := by
          have := brIdx_le_getD l x' hs (brIdx l x) (le_of_eq heq.symm) (by omega)
          exact this
        have hxeq : x' = x := le_antisymm (by rw [hx]; exact hx'le) hxx
        rw [hxeq]
      · by_cases hx' : x' = (l.getD (brIdx l x') (0, 0)).1
        · calc brVal l x ≤ (l.getD (brIdx l x) (0, 0)).2 :=
              brVal_upper l x hs hvm hn hhix
            _ = brVal l x' := by
              rw [brVal, if_neg hi0', if_pos hx', heq]
        · obtain ⟨hdB, hxle, hden⟩ := brVal_segment l x hs hn hi0 hhix
          obtain ⟨hdB', hxle', _⟩ := brVal_segment l x' hs hn hi0' hhi
          rw [← heq] at hdB' hxle'
          have hVle : (l.getD (brIdx l x - 1) (0, 0)).2 ≤
              (l.getD (brIdx l x) (0, 0)).2 :=
            vals_mono l hvm _ _ (by omega) (by omega)
          rw [brVal, brVal, if_neg hi0, if_neg hi0', if_neg hx, if_neg hx', ← heq]
          have hww : (x - (l.getD (brIdx l x - 1) (0, 0)).1) /
              ((l.getD (brIdx l x) (0, 0)).1 - (l.getD (brIdx l x - 1) (0, 0)).1) ≤
              (x' - (l.getD (brIdx l x - 1) (0, 0)).1) /
              ((l.getD (brIdx l x) (0, 0)).1 - (l.getD (brIdx l x - 1) (0, 0)).1) :=
            (div_le_div_iff_of_pos_right (by linarith)).mpr (by linarith)
          have key := mul_nonneg (sub_nonneg.mpr hww) (sub_nonneg.mpr hVle)
          nlinarith [key]

lemma interpColumn_length (rs : List (ℚ × ℚ)) (dps : List ℚ) :
    (interpColumn rs dps).length = dps.length := by
  unfold interpColumn
  split_ifs <;> simp

lemma interpColumn_getD_two (rs : List (ℚ × ℚ)) (dps : List ℚ) (dIdx : ℕ)
    (h2 : 2 ≤ rs.length) (hdlen : dIdx < dps.length) :
    (interpColumn rs dps).getD dIdx none =
      interpAt (sortReadings rs) (dps.getD dIdx 0) := by
  unfold interpColumn
  rw [if_pos h2]
  exact getD_map_lt _ _ _ hdlen none 0

lemma interpColumn_getD_one (rs : List (ℚ × ℚ)) (dps : List ℚ) (dIdx : ℕ)
    (h1 : rs.length = 1) (hdlen : dIdx < dps.length) :
    (interpColumn rs dps).getD dIdx none = some (rs.headD (0, 0)).2 := by
  unfold interpColumn
  rw [if_neg (by omega), if_pos h1, getD_map_const, if_pos hdlen]

lemma interpColumn_some_lt (rs : List (ℚ × ℚ)) (dps : List ℚ) (j : ℕ)
    (v : ℚ) (h : (interpColumn rs dps).getD j none = some v) :
    j < dps.length := by
  by_contra hcon
  rw [getD_of_length_le _ _ _ (by rw [interpColumn_length]; omega)] at h
  exact Option.noConfusion h

lemma interpColumn_mono (rs : List (ℚ × ℚ)) (dps : List ℚ)
    (hnd : (rs.map Prod.fst).Nodup)
    (hvmono : ∀ p ∈ rs, ∀ q ∈ rs, p.1 < q.1 → p.2 ≤ q.2)
    (hdps : dps.Pairwise (· ≤ ·)) :
    ∀ i j vi vj, i ≤ j → (interpColumn rs dps).getD i none = some vi →
      (interpColumn rs dps).getD j none = some vj → vi ≤ vj := by
  intro i j vi vj hij hi hj
  have hilen : i < dps.length := interpColumn_some_lt rs dps i vi hi
  have hjlen : j < dps.length := interpColumn_some_lt rs dps j vj hj
  have hx : dps.getD i 0 ≤ dps.getD j 0 := by
    rcases eq_or_lt_of_le hij with h | h
    · rw [h]
    · exact pairwise_getD dps hdps i j 0 h hjlen
  by_cases h2 : 2 ≤ rs.length
  · have hs := sortReadings_strict rs hnd
    have hvm : (sortReadings rs).Pairwise (fun a b => a.2 ≤ b.2) :=
      hs.imp_of_mem (fun ha hb h => hvmono _ ((sortReadings_mem rs _).mp ha)
        _ ((sortReadings_mem rs _).mp hb) h)
    have hn2 : 2 ≤ (sortReadings rs).length := by
      rw [sortReadings_length]; exact h2
    rw [interpColumn_getD_two rs dps i h2 hilen] at hi
    rw [interpColumn_getD_two rs dps j h2 hjlen] at hj
    have hri : ((interpAt (sortReadings rs) (dps.getD i 0)).isSome) := by
      rw [hi]; rfl
    have hrj : ((interpAt (sortReadings rs) (dps.getD j 0)).isSome) := by
      rw [hj]; rfl
    rw [interpAt_isSome] at hri hrj
    rw [interpAt_in_range _ _ hs hn2 hri.1 hri.2] at hi
    rw [interpAt_in_range _ _ hs hn2 hrj.1 hrj.2] at hj
    have hvi : vi = brVal (sortReadings rs) (dps.getD i 0) :=
      (Option.some_injective _ hi).symm
    have hvj : vj = brVal (sortReadings rs) (dps.getD j 0) :=
      (Option.some_injective _ hj).symm
    rw [hvi, hvj]
    exact brVal_mono _ _ _ hs hvm hn2 hx hrj.2
  · by_cases h1 : rs.length = 1
    · rw [interpColumn_getD_one rs dps i h1 hilen] at hi
      rw [interpColumn_getD_one rs dps j h1 hjlen] at hj
      rw [← Option.some_injective _ hi, ← Option.some_injective _ hj]
    · have h0 : rs.length = 0 := by omega
      unfold interpColumn at hi
      rw [if_neg h2, if_neg (by omega), getD_map_const, ite_self] at hi
      exact Option.noConfusion hi

lemma headD_mem {l : List ℕ} (hne : l ≠ []) : l.headD 0 ∈ l := by
  cases l with
  | nil => exact absurd rfl hne
  | cons a t => exact List.mem_cons_self a t

lemma headD_le_getLastD {l : List ℕ} (hs : l.Pairwise (· < ·)) (hne : l ≠ []) :
    l.headD 0 ≤ l.getLastD 0 :=
  le_getLastD_of_mem hs (headD_mem hne)

lemma fillColumn_some_lt (col : List (Option ℚ)) (j : ℕ) (v : ℚ)
    (h : (fillColumn col).getD j none = some v) : j < col.length := by
  by_contra hcon
  rw [getD_of_length_le _ _ _ (by rw [fillColumn_length]; omega)] at h
  exact Option.noConfusion h

lemma fillColumn_mono (col : List (Option ℚ))
    (hmono : ∀ i j vi vj, i ≤ j → col.getD i none = some vi →
      col.getD j none = some vj → vi ≤ vj) :
    ∀ i j vi vj, i ≤ j → (fillColumn col).getD i none = some vi →
      (fillColumn col).getD j none = some vj → vi ≤ vj := by
  intro i j vi vj hij hi hj
  by_cases hval : (List.range col.length).filter
      (fun k => (col.getD k none).isSome) = []
  · rw [fillColumn_of_valid_nil col hval] at hi hj
    exact hmono i j vi vj hij hi hj
  · have hjlen : j < col.length := fillColumn_some_lt col j vj hj
    have hilen : i < col.length := lt_of_le_of_lt hij hjlen
    have hlohi : ((List.range col.length).filter
          (fun k => (col.getD k none).isSome)).headD 0 ≤
        ((List.range col.length).filter
          (fun k => (col.getD k none).isSome)).getLastD 0 :=
      headD_le_getLastD (valid_pairwise col) hval
    rw [fillColumn_getD col i hilen hval] at hi
    rw [fillColumn_getD col j hjlen hval] at hj
    split_ifs at hi with h1 h2 <;> split_ifs at hj with h3 h4
    · exact hmono _ _ _ _ le_rfl hi hj
    · exact hmono _ _ _ _ hlohi hi hj
    · exact hmono _ _ _ _ (by omega) hi hj
    · exact (by omega : False).elim
    · exact hmono _ _ _ _ le_rfl hi hj
    · exact (by omega : False).elim
    · exact (by omega : False).elim
    · exact hmono _ _ _ _ (by omega) hi hj
    · exact hmono _ _ _ _ hij hi hj

/-- Claim C8: when the valid readings' values are non-decreasing with
depth at a time index, the stored grid column at that time (including any
cells written by the boundary-fill pass) is non-decreasing along the depth
axis over its non-missing cells. -/
theorem claim_C8_monotone (reg : Registry) (v : String) (times : List Time)
    (dps : List ℚ) (fl : Bool) (g : Grid) (tIdx : ℕ)
    (hg : interpVariable reg v times dps fl = some g)
    (ht : tIdx < times.length)
    (hnd : ((readingsAt (varDataFor reg v times) tIdx).map Prod.fst).Nodup)
    (hvmono : ∀ p ∈ readingsAt (varDataFor reg v times) tIdx,
      ∀ q ∈ readingsAt (varDataFor reg v times) tIdx, p.1 < q.1 → p.2 ≤ q.2)
    (hdps : dps.Pairwise (· ≤ ·)) :
    ∀ i j vi vj, i ≤ j → g.cell i tIdx = some vi →
      g.cell j tIdx = some vj → vi ≤ vj := by
  have hcol := interpVariable_column reg v times dps fl g tIdx hg ht
  intro i j vi vj hij hi hj
  rw [Grid.cell, hcol] at hi hj
  have hmono := interpColumn_mono (readingsAt (varDataFor reg v times) tIdx)
    dps hnd hvmono hdps
  by_cases hb : (fl && !(readingsAt (varDataFor reg v times)
      (times.length - 1)).isEmpty) = true
  · rw [if_pos hb] at hi hj
    exact fillColumn_mono _ hmono i j vi vj hij hi hj
  · rw [if_neg hb] at hi hj
    exact hmono i j vi vj hij hi hj

/-- Witness for C8 at a concrete two-sensor input with non-decreasing
values. -/
theorem claim_C8_witness : (3 : ℚ) ≤ 5 :=
  claim_C8_monotone
    [(0, ⟨[0], [("T", [some 3])]⟩), (1, ⟨[0], [("T", [some 5])]⟩)]
    "T" [0] [0, 1] true ⟨[[some 3, some 5]], [0, 1], [0]⟩ 0
    rfl (by decide) (by decide) (by decide) (by decide)
    0 1 3 5 (by decide) rfl rfl

lemma getLastD_mem {l : List ℕ} (hne : l ≠ []) : l.getLastD 0 ∈ l := by
  cases l with
  | nil => exact absurd rfl hne
  | cons a t =>
    rw [List.getLastD_eq_getLast?, List.getLast?_eq_getLast (a :: t) (by simp)]
    exact List.getLast_mem _

lemma fillColumn_isSome_lt (col : List (Option ℚ)) (j : ℕ)
    (h : ((fillColumn col).getD j none).isSome) : j < col.length := by
  obtain ⟨v, hv⟩ := Option.isSome_iff_exists.mp h
  exact fillColumn_some_lt col j v hv

lemma interpColumn_isSome_lt (rs : List (ℚ × ℚ)) (dps : List ℚ) (j : ℕ)
    (h : ((interpColumn rs dps).getD j none).isSome) : j < dps.length := by
  obtain ⟨v, hv⟩ := Option.isSome_iff_exists.mp h
  exact interpColumn_some_lt rs dps j v hv

lemma interpColumn_nogap (rs : List (ℚ × ℚ)) (dps : List ℚ)
    (hdps : dps.Pairwise (· ≤ ·)) :
    ∀ i j k, i ≤ j → j ≤ k →
      ((interpColumn rs dps).getD i none).isSome →
      ((interpColumn rs dps).getD k none).isSome →
      ((interpColumn rs dps).getD j none).isSome := by
  intro i j k hij hjk hi hk
  have hklen : k < dps.length := interpColumn_isSome_lt rs dps k hk
  have hjlen : j < dps.length := lt_of_le_of_lt hjk hklen
  have hilen : i < dps.length := lt_of_le_of_lt hij hjlen
  have hxij : dps.getD i 0 ≤ dps.getD j 0 := by
    rcases eq_or_lt_of_le hij with h | h
    · rw [h]
    · exact pairwise_getD dps hdps i j 0 h hjlen
  have hxjk : dps.getD j 0 ≤ dps.getD k 0 := by
    rcases eq_or_lt_of_le hjk with h | h
    · rw [h]
    · exact pairwise_getD dps hdps j k 0 h hklen
  by_cases h2 : 2 ≤ rs.length
  · rw [interpColumn_getD_two rs dps i h2 hilen, interpAt_isSome] at hi
    rw [interpColumn_getD_two rs dps k h2 hklen, interpAt_isSome] at hk
    rw [interpColumn_getD_two rs dps j h2 hjlen, interpAt_isSome]
    exact ⟨le_trans hi.1 hxij, le_trans hxjk hk.2⟩
  · by_cases h1 : rs.length = 1
    · rw [interpColumn_getD_one rs dps j h1 hjlen]
      rfl
    · unfold interpColumn at hi
      rw [if_neg h2, if_neg (by omega), getD_map_const, ite_self] at hi
      exact absurd hi (by simp)

lemma fillColumn_nogap (col : List (Option ℚ))
    (hng : ∀ i j k, i ≤ j → j ≤ k → (col.getD i none).isSome →
      (col.getD k none).isSome → (col.getD j none).isSome) :
    ∀ i j k, i ≤ j → j ≤ k →
      ((fillColumn col).getD i none).isSome →
      ((fillColumn col).getD k none).isSome →
      ((fillColumn col).getD j none).isSome := by
  intro i j k hij hjk hi hk
  by_cases hval : (List.range col.length).filter
      (fun m => (col.getD m none).isSome) = []
  · rw [fillColumn_of_valid_nil col hval] at hi hk ⊢
    exact hng i j k hij hjk hi hk
  · have hklen : k < col.length := fillColumn_isSome_lt col k hk
    have hjlen : j < col.length := lt_of_le_of_lt hjk hklen
    have hloMem := headD_mem hval
    have hhiMem := getLastD_mem hval
    rw [mem_valid_iff] at hloMem hhiMem
    rw [fillColumn_getD col j hjlen hval]
    split_ifs with h1 h2
    · exact hloMem.2
    · exact hhiMem.2
    · -- lo ≤ j ≤ hi: apply the no-gap hypothesis between lo and hi
      exact hng _ j _ (not_lt.mp h1) (not_lt.mp h2) hloMem.2 hhiMem.2

/-- Claim C10: in every stored grid column the non-missing cells form a
contiguous index range — the whole column for one valid reading, nothing
for zero, and (before the fill pass) exactly the depth points inside the
interval from the shallowest to the deepest valid reading depth for two
or more; and in the final column a missing cell never lies strictly
between two non-missing cells. -/
theorem claim_C10_contiguous (reg : Registry) (v : String) (times : List Time)
    (dps : List ℚ) (fl : Bool) (g : Grid) (tIdx : ℕ)
    (hg : interpVariable reg v times dps fl = some g)
    (ht : tIdx < times.length)
    (hdps : dps.Pairwise (· ≤ ·)) :
    (readingsAt (varDataFor reg v times) tIdx = [] →
      ∀ dIdx, g.cell dIdx tIdx = none) ∧
    ((readingsAt (varDataFor reg v times) tIdx).length = 1 →
      ∀ dIdx < dps.length, (g.cell dIdx tIdx).isSome) ∧
    (2 ≤ (readingsAt (varDataFor reg v times) tIdx).length →
      (∀ p ∈ readingsAt (varDataFor reg v times) tIdx,
        ((sortReadings (readingsAt (varDataFor reg v times) tIdx)).getD 0
          (0, 0)).1 ≤ p.1 ∧
        p.1 ≤ ((sortReadings (readingsAt (varDataFor reg v times) tIdx)).getD
          ((sortReadings (readingsAt (varDataFor reg v times) tIdx)).length - 1)
          (0, 0)).1) ∧
      (sortReadings (readingsAt (varDataFor reg v times) tIdx)).getD 0 (0, 0) ∈
        readingsAt (varDataFor reg v times) tIdx ∧
      (sortReadings (readingsAt (varDataFor reg v times) tIdx)).getD
        ((sortReadings (readingsAt (varDataFor reg v times) tIdx)).length - 1)
        (0, 0) ∈ readingsAt (varDataFor reg v times) tIdx ∧
      (∀ dIdx < dps.length,
        (((interpColumn (readingsAt (varDataFor reg v times) tIdx) dps).getD
          dIdx none).isSome ↔
          (((sortReadings (readingsAt (varDataFor reg v times) tIdx)).getD 0
            (0, 0)).1 ≤ dps.getD dIdx 0 ∧
           dps.getD dIdx 0 ≤
            ((sortReadings (readingsAt (varDataFor reg v times) tIdx)).getD
              ((sortReadings (readingsAt (varDataFor reg v times)
                tIdx)).length - 1) (0, 0)).1)))) ∧
    (∀ i j k, i ≤ j → j ≤ k → (g.cell i tIdx).isSome →
      (g.cell k tIdx).isSome → (g.cell j tIdx).isSome) := by
  have hcol := interpVariable_column reg v times dps fl g tIdx hg ht
  refine ⟨?_, ?_, ?_, ?_⟩
  · intro hk dIdx
    rw [hk, interpColumn_nil] at hcol
    rw [Grid.cell, hcol]
    by_cases hb : (fl && !(readingsAt (varDataFor reg v times)
        (times.length - 1)).isEmpty) = true
    · rw [if_pos hb, fillColumn_of_valid_nil]
      · exact getD_map_none dps dIdx
      · apply List.filter_eq_nil_iff.mpr
        intro a _
        simp [getD_map_none]
    · rw [if_neg hb]
      exact getD_map_none dps dIdx
  · intro h1 dIdx hdlen
    have hone := interpColumn_getD_one _ dps dIdx h1 hdlen
    rw [Grid.cell, hcol]
    by_cases hb : (fl && !(readingsAt (varDataFor reg v times)
        (times.length - 1)).isEmpty) = true
    · rw [if_pos hb,
        fillColumn_preserves_some _ dIdx _ (by rw [interpColumn_length]; exact hdlen) hone]
      rfl
    · rw [if_neg hb, hone]
      rfl
  · intro h2
    have hle : (sortReadings (readingsAt (varDataFor reg v times)
        tIdx)).Pairwise depthLE :=
      List.sorted_insertionSort depthLE _
    have hlen : (sortReadings (readingsAt (varDataFor reg v times)
        tIdx)).length = (readingsAt (varDataFor reg v times) tIdx).length :=
      sortReadings_length _
    refine ⟨?_, ?_, ?_, ?_⟩
    · intro p hp
      obtain ⟨jp, hjp, hgetD⟩ :=
        mem_getD _ p (0, 0) ((sortReadings_mem _ p).mpr hp)
      constructor
      · rcases Nat.eq_zero_or_pos jp with h | h
        · rw [← hgetD, h]
        · rw [← hgetD]
          exact pairwise_getD _ hle 0 jp (0, 0) h hjp
      · rcases eq_or_lt_of_le (Nat.le_sub_one_of_lt hjp) with h | h
        · rw [← hgetD, h]
        · rw [← hgetD]
          exact pairwise_getD _ hle jp _ (0, 0) h (by omega)
    · exact (sortReadings_mem _ _).mp (getD_mem' _ 0 (0, 0) (by omega))
    · exact (sortReadings_mem _ _).mp (getD_mem' _ _ (0, 0) (by omega))
    · intro dIdx hdlen
      rw [interpColumn_getD_two _ dps dIdx h2 hdlen]
      exact interpAt_isSome _ _
  · intro i j k hij hjk hi hk
    rw [Grid.cell, hcol] at hi hk ⊢
    have hng := interpColumn_nogap (readingsAt (varDataFor reg v times) tIdx)
      dps hdps
    by_cases hb : (fl && !(readingsAt (varDataFor reg v times)
        (times.length - 1)).isEmpty) = true
    · rw [if_pos hb] at hi hk ⊢
      exact fillColumn_nogap _ hng i j k hij hjk hi hk
    · rw [if_neg hb] at hi hk ⊢
      exact hng i j k hij hjk hi hk

/-- Witness for C10 at a concrete two-sensor input. -/
theorem claim_C10_witness :
    (readingsAt (varDataFor [(1, ⟨[0], [("T", [some 10])]⟩), (2, ⟨[0], [("T", [some 20])]⟩)] "T" [0]) 0 = [] →
      ∀ dIdx, Grid.cell (⟨[[some 10, some 10, some 20, some 20]], [0, 1, 2, 3], [0]⟩ : Grid) dIdx 0 = none) ∧
    ((readingsAt (varDataFor [(1, ⟨[0], [("T", [some 10])]⟩), (2, ⟨[0], [("T", [some 20])]⟩)] "T" [0]) 0).length = 1 →
      ∀ dIdx < (([0, 1, 2, 3] : List ℚ)).length, (Grid.cell (⟨[[some 10, some 10, some 20, some 20]], [0, 1, 2, 3], [0]⟩ : Grid) dIdx 0).isSome) ∧
    (2 ≤ (readingsAt (varDataFor [(1, ⟨[0], [("T", [some 10])]⟩), (2, ⟨[0], [("T", [some 20])]⟩)] "T" [0]) 0).length →
      (∀ p ∈ readingsAt (varDataFor [(1, ⟨[0], [("T", [some 10])]⟩), (2, ⟨[0], [("T", [some 20])]⟩)] "T" [0]) 0,
        ((sortReadings (readingsAt (varDataFor [(1, ⟨[0], [("T", [some 10])]⟩), (2, ⟨[0], [("T", [some 20])]⟩)] "T" [0]) 0)).getD 0 (0, 0)).1 ≤ p.1 ∧
        p.1 ≤ ((sortReadings (readingsAt (varDataFor [(1, ⟨[0], [("T", [some 10])]⟩), (2, ⟨[0], [("T", [some 20])]⟩)] "T" [0]) 0)).getD ((sortReadings (readingsAt (varDataFor [(1, ⟨[0], [("T", [some 10])]⟩), (2, ⟨[0], [("T", [some 20])]⟩)] "T" [0]) 0)).length - 1) (0, 0)).1) ∧
      (sortReadings (readingsAt (varDataFor [(1, ⟨[0], [("T", [some 10])]⟩), (2, ⟨[0], [("T", [some 20])]⟩)] "T" [0]) 0)).getD 0 (0, 0) ∈ readingsAt (varDataFor [(1, ⟨[0], [("T", [some 10])]⟩), (2, ⟨[0], [("T", [some 20])]⟩)] "T" [0]) 0 ∧
      (sortReadings (readingsAt (varDataFor [(1, ⟨[0], [("T", [some 10])]⟩), (2, ⟨[0], [("T", [some 20])]⟩)] "T" [0]) 0)).getD ((sortReadings (readingsAt (varDataFor [(1, ⟨[0], [("T", [some 10])]⟩), (2, ⟨[0], [("T", [some 20])]⟩)] "T" [0]) 0)).length - 1) (0, 0) ∈ readingsAt (varDataFor [(1, ⟨[0], [("T", [some 10])]⟩), (2, ⟨[0], [("T", [some 20])]⟩)] "T" [0]) 0 ∧
      (∀ dIdx < (([0, 1, 2, 3] : List ℚ)).length,
        (((interpColumn (readingsAt (varDataFor [(1, ⟨[0], [("T", [some 10])]⟩), (2, ⟨[0], [("T", [some 20])]⟩)] "T" [0]) 0) ([0, 1, 2, 3] : List ℚ)).getD dIdx none).isSome ↔
          (((sortReadings (readingsAt (varDataFor [(1, ⟨[0], [("T", [some 10])]⟩), (2, ⟨[0], [("T", [some 20])]⟩)] "T" [0]) 0)).getD 0 (0, 0)).1 ≤ (([0, 1, 2, 3] : List ℚ)).getD dIdx 0 ∧
           (([0, 1, 2, 3] : List ℚ)).getD dIdx 0 ≤
            ((sortReadings (readingsAt (varDataFor [(1, ⟨[0], [("T", [some 10])]⟩), (2, ⟨[0], [("T", [some 20])]⟩)] "T" [0]) 0)).getD ((sortReadings (readingsAt (varDataFor [(1, ⟨[0], [("T", [some 10])]⟩), (2, ⟨[0], [("T", [some 20])]⟩)] "T" [0]) 0)).length - 1) (0, 0)).1)))) ∧
    (∀ i j k, i ≤ j → j ≤ k → (Grid.cell (⟨[[some 10, some 10, some 20, some 20]], [0, 1, 2, 3], [0]⟩ : Grid) i 0).isSome →
      (Grid.cell (⟨[[some 10, some 10, some 20, some 20]], [0, 1, 2, 3], [0]⟩ : Grid) k 0).isSome → (Grid.cell (⟨[[some 10, some 10, some 20, some 20]], [0, 1, 2, 3], [0]⟩ : Grid) j 0).isSome) :=
  claim_C10_contiguous
    [(1, ⟨[0], [("T", [some 10])]⟩), (2, ⟨[0], [("T", [some 20])]⟩)]
    "T" [0] [0, 1, 2, 3] true
    ⟨[[some 10, some 10, some 20, some 20]], [0, 1, 2, 3], [0]⟩ 0
    rfl (by decide) (by decide)

lemma depths_mono (l : List (ℚ × ℚ))
    (hs : l.Pairwise (fun a b => a.1 < b.1)) (j k : ℕ) (hjk : j ≤ k)
    (hk : k < l.length) : (l.getD j (0, 0)).1 ≤ (l.getD k (0, 0)).1 := by
  rcases eq_or_lt_of_le hjk with h | h
  · rw [h]
  · exact le_of_lt (pairwise_getD l hs j k _ h hk)

lemma interpAt_echo (l : List (ℚ × ℚ)) (x vk : ℚ)
    (hs : l.Pairwise (fun a b => a.1 < b.1)) (hn : 2 ≤ l.length)
    (hmem : (x, vk) ∈ l) : interpAt l x = some vk := by
  obtain ⟨kk, hkk, hget⟩ := mem_getD l (x, vk) (0, 0) hmem
  have hDk : (l.getD kk (0, 0)).1 = x := by rw [hget]
  have hVk : (l.getD kk (0, 0)).2 = vk := by rw [hget]
  have hlo : (l.getD 0 (0, 0)).1 ≤ x := by
    rw [← hDk]
    exact depths_mono l hs 0 kk (Nat.zero_le _) hkk
  have hhi : x ≤ (l.getD (l.length - 1) (0, 0)).1 := by
    rw [← hDk]
    exact depths_mono l hs kk _ (Nat.le_sub_one_of_lt hkk) (by omega)
  rw [interpAt_in_range l x hs hn hlo hhi]
  have hik : brIdx l x = kk := by
    have h1 : brIdx l x ≤ kk := by
      by_contra hcon
      have := brIdx_lt_getD l x hs kk (not_le.mp hcon)
      rw [hDk] at this
      exact lt_irrefl x this
    have h2 : kk ≤ brIdx l x := by
      by_contra hcon
      have hkk1 : 1 ≤ kk := by omega
      have hlt := pairwise_getD l hs (kk - 1) kk (0, 0) (by omega) hkk
      have := brIdx_le_getD l x hs (kk - 1) (by omega) (by omega)
      rw [hDk] at hlt
      linarith
    omega
  rw [brVal]
  by_cases hi0 : brIdx l x = 0
  · rw [if_pos hi0]
    rw [show (0 : ℕ) = kk by omega, hVk]
  · rw [if_neg hi0, if_pos (by rw [hik, hDk]), hik, hVk]

lemma interpAt_blend (l : List (ℚ × ℚ)) (x d1 v1 d2 v2 : ℚ)
    (hs : l.Pairwise (fun a b => a.1 < b.1)) (hn : 2 ≤ l.length)
    (hm1 : (d1, v1) ∈ l) (hm2 : (d2, v2) ∈ l)
    (h1x : d1 < x) (h2x : x < d2)
    (hnb : ∀ p ∈ l, ¬(d1 < p.1 ∧ p.1 < d2)) :
    interpAt l x = some (v1 + (v2 - v1) * (x - d1) / (d2 - d1)) := by
  obtain ⟨j1, hj1, hget1⟩ := mem_getD l (d1, v1) (0, 0) hm1
  obtain ⟨j2, hj2, hget2⟩ := mem_getD l (d2, v2) (0, 0) hm2
  have hD1 : (l.getD j1 (0, 0)).1 = d1 := by rw [hget1]
  have hD2 : (l.getD j2 (0, 0)).1 = d2 := by rw [hget2]
  have hd12 : d1 < d2 := lt_trans h1x h2x
  have hj12 : j1 < j2 := by
    by_contra hcon
    have hle : (l.getD j2 (0, 0)).1 ≤ (l.getD j1 (0, 0)).1 :=
      depths_mono l hs j2 j1 (not_lt.mp hcon) hj1
    rw [hD1, hD2] at hle
    linarith
  have hsucc : j2 = j1 + 1 := by
    by_contra hcon
    have hmid : j1 + 1 < j2 := by omega
    have hp := getD_mem' l (j1 + 1) (0, 0) (by omega)
    have hd1p : d1 < (l.getD (j1 + 1) (0, 0)).1 := by
      rw [← hD1]
      exact pairwise_getD l hs j1 (j1 + 1) _ (by omega) (by omega)
    have hpd2 : (l.getD (j1 + 1) (0, 0)).1 < d2 := by
      rw [← hD2]
      exact pairwise_getD l hs (j1 + 1) j2 _ hmid hj2
    exact hnb _ hp ⟨hd1p, hpd2⟩
  have hlo : (l.getD 0 (0, 0)).1 ≤ x := by
    have := depths_mono l hs 0 j1 (Nat.zero_le _) hj1
    rw [hD1] at this
    linarith
  have hhi : x ≤ (l.getD (l.length - 1) (0, 0)).1 := by
    have := depths_mono l hs j2 (l.length - 1) (Nat.le_sub_one_of_lt hj2) (by omega)
    rw [hD2] at this
    linarith
  rw [interpAt_in_range l x hs hn hlo hhi]
  have hik : brIdx l x = j2 := by
    have h1 : brIdx l x ≤ j2 := by
      by_contra hcon
      have := brIdx_lt_getD l x hs j2 (not_le.mp hcon)
      rw [hD2] at this
      linarith
    have h2 : j2 ≤ brIdx l x := by
      by_contra hcon
      have hble : brIdx l x ≤ j1 := by omega
      have := brIdx_le_getD l x hs j1 hble hj1
      rw [hD1] at this
      linarith
    omega
  have hi0 : brIdx l x ≠ 0 := by
    rw [hik, hsucc]
    exact Nat.succ_ne_zero j1
  have hxne : x ≠ (l.getD (brIdx l x) (0, 0)).1 := by
    rw [hik, hD2]
    exact ne_of_lt h2x
  rw [hsucc] at hget2
  rw [brVal, if_neg hi0, if_neg hxne, hik, hsucc, Nat.add_sub_cancel,
    hget1, hget2]
  have hden : d2 - d1 ≠ 0 := by
    intro h
    apply absurd hd12
    rw [show d2 = d1 by linarith]
    exact lt_irrefl d1
  congr 1
  field_simp
  ring

/-- Claim C5: at a time index with at least two valid readings, a depth
point that exactly equals a valid reading's depth receives that reading's
value exactly, in the stored grid (the fill pass never alters a
non-missing cell). -/
theorem claim_C5_exact_echo (reg : Registry) (v : String) (times : List Time)
    (dps : List ℚ) (fl : Bool) (g : Grid) (tIdx dIdx : ℕ) (dk vk : ℚ)
    (hg : interpVariable reg v times dps fl = some g)
    (ht : tIdx < times.length)
    (hnd : ((readingsAt (varDataFor reg v times) tIdx).map Prod.fst).Nodup)
    (h2 : 2 ≤ (readingsAt (varDataFor reg v times) tIdx).length)
    (hdlen : dIdx < dps.length) (hd : dps.getD dIdx 0 = dk)
    (hmem : (dk, vk) ∈ readingsAt (varDataFor reg v times) tIdx) :
    g.cell dIdx tIdx = some vk := by
  have hcol := interpVariable_column reg v times dps fl g tIdx hg ht
  have hs := sortReadings_strict _ hnd
  have hn2 : 2 ≤ (sortReadings (readingsAt (varDataFor reg v times)
      tIdx)).length := by
    rw [sortReadings_length]
    exact h2
  have hcell : (interpColumn (readingsAt (varDataFor reg v times) tIdx)
      dps).getD dIdx none = some vk := by
    rw [interpColumn_getD_two _ dps dIdx h2 hdlen, hd]
    exact interpAt_echo _ dk vk hs hn2 ((sortReadings_mem _ _).mpr hmem)
  rw [Grid.cell, hcol]
  by_cases hb : (fl && !(readingsAt (varDataFor reg v times)
      (times.length - 1)).isEmpty) = true
  · rw [if_pos hb]
    exact fillColumn_preserves_some _ dIdx vk
      (by rw [interpColumn_length]; exact hdlen) hcell
  · rw [if_neg hb]
    exact hcell

/-- Claim C4: at a time index with at least two valid readings, a depth
point strictly between two adjacent valid reading depths (no valid
reading strictly between them) receives the linear blend
`v1 + (v2 - v1) * (d - d1) / (d2 - d1)` of exactly those two readings,
in the stored grid. -/
theorem claim_C4_linear_blend (reg : Registry) (v : String)
    (times : List Time) (dps : List ℚ) (fl : Bool) (g : Grid)
    (tIdx dIdx : ℕ) (d d1 v1 d2 v2 : ℚ)
    (hg : interpVariable reg v times dps fl = some g)
    (ht : tIdx < times.length)
    (hnd : ((readingsAt (varDataFor reg v times) tIdx).map Prod.fst).Nodup)
    (h2 : 2 ≤ (readingsAt (varDataFor reg v times) tIdx).length)
    (hdlen : dIdx < dps.length) (hd : dps.getD dIdx 0 = d)
    (hm1 : (d1, v1) ∈ readingsAt (varDataFor reg v times) tIdx)
    (hm2 : (d2, v2) ∈ readingsAt (varDataFor reg v times) tIdx)
    (h1x : d1 < d) (h2x : d < d2)
    (hnb : ∀ p ∈ readingsAt (varDataFor reg v times) tIdx,
      ¬(d1 < p.1 ∧ p.1 < d2)) :
    g.cell dIdx tIdx = some (v1 + (v2 - v1) * (d - d1) / (d2 - d1)) := by
  have hcol := interpVariable_column reg v times dps fl g tIdx hg ht
  have hs := sortReadings_strict _ hnd
  have hn2 : 2 ≤ (sortReadings (readingsAt (varDataFor reg v times)
      tIdx)).length := by
    rw [sortReadings_length]
    exact h2
  have hcell : (interpColumn (readingsAt (varDataFor reg v times) tIdx)
      dps).getD dIdx none = some (v1 + (v2 - v1) * (d - d1) / (d2 - d1)) := by
    rw [interpColumn_getD_two _ dps dIdx h2 hdlen, hd]
    exact interpAt_blend _ d d1 v1 d2 v2 hs hn2
      ((sortReadings_mem _ _).mpr hm1) ((sortReadings_mem _ _).mpr hm2)
      h1x h2x
      (fun p hp => hnb p ((sortReadings_mem _ _).mp hp))
  rw [Grid.cell, hcol]
  by_cases hb : (fl && !(readingsAt (varDataFor reg v times)
      (times.length - 1)).isEmpty) = true
  · rw [if_pos hb]
    exact fillColumn_preserves_some _ dIdx _
      (by rw [interpColumn_length]; exact hdlen) hcell
  · rw [if_neg hb]
    exact hcell

/-- Witness for C5 at a concrete two-sensor input whose second depth
point coincides with the deeper sensor. -/
theorem claim_C5_witness :
    Grid.cell ⟨[[some 3, some 5]], [0, 1], [0]⟩ 1 0 = some 5 :=
  claim_C5_exact_echo
    [(0, ⟨[0], [("T", [some 3])]⟩), (1, ⟨[0], [("T", [some 5])]⟩)]
    "T" [0] [0, 1] true ⟨[[some 3, some 5]], [0, 1], [0]⟩ 0 1 1 5
    rfl (by decide) (by decide) (by decide) (by decide) rfl (by decide)

/-- Witness for C4 at a concrete two-sensor input with the single depth
point strictly between the sensors: the stored cell, literally the
source's blend `(1-w)*v_below + w*v_above`, equals the claim's
`v1 + (v2-v1)*(d-d1)/(d2-d1)`. -/
theorem claim_C4_witness :
    Grid.cell ⟨[[some ((1 - (2 - 1) / (3 - 1)) * 2 + (2 - 1) / (3 - 1) * 6)]],
        [2], [0]⟩ 0 0 = some (2 + (6 - 2) * (2 - 1) / (3 - 1)) :=
  claim_C4_linear_blend
    [(1, ⟨[0], [("T", [some 2])]⟩), (3, ⟨[0], [("T", [some 6])]⟩)]
    "T" [0] [2] false
    ⟨[[some ((1 - (2 - 1) / (3 - 1)) * 2 + (2 - 1) / (3 - 1) * 6)]], [2], [0]⟩
    0 0 2 1 2 3 6
    rfl (by decide) (by decide) (by decide) (by decide) rfl
    (by decide) (by decide) (by decide) (by decide) (by decide)

end WaterCol
